import Mathlib

/-!
Verification development for the Suumo listing scraper
(`src/suumo_scrapper.py`).

The extraction pipeline of the scraper is embedded shallowly:

* Python strings are `List Char`;
* `str.lstrip(cs)` / `str.rstrip(cs)` (which strip a *character class*,
  not a literal suffix) are `pyLstrip` / `pyRstrip`;
* `str.replace(old, new)` for one-character arguments is `pyReplaceChar`;
* Python `float(...)` on the decimal texts this scraper feeds it is
  `pyFloat : List Char → Option ℚ` (`none` models a raised
  `ValueError`).  CPython floats are binary64; this embedding models
  their values as exact rationals and therefore asserts numeric results
  only where binary64 arithmetic is exact (integers and sums of small
  dyadics well below 2^53) or where the result does not depend on the
  rounding (comparisons with a placeholder, string-level properties);
* Python `int(...)` applied to a float truncates toward zero: `pyTrunc`;
* `re.search` with the module's patterns is run by a small backtracking
  regex engine (`runRE`/`reSearch`) over an explicit AST, faithful to
  Python's leftmost-match, greedy, ordered-alternation semantics for the
  constructs the patterns use;
* a raised exception (IndexError, AttributeError, ValueError) is `none`;
* `print(...)` diagnostics are recorded as a `Bool` flag in the result.
-/

namespace Suumo

/-- Python `s.lstrip(cs)`: drop the longest prefix of characters that are
members of the character set `cs`. -/
def pyLstrip (cs : List Char) (s : List Char) : List Char :=
  s.dropWhile (fun c => decide (c ∈ cs))

/-- Python `s.rstrip(cs)`: drop the longest suffix of characters that are
members of the character set `cs`. -/
def pyRstrip (cs : List Char) (s : List Char) : List Char :=
  (s.reverse.dropWhile (fun c => decide (c ∈ cs))).reverse

/-- Python `s.replace(old, new)` for single-character `old`/`new`. -/
def pyReplaceChar (old new : Char) (s : List Char) : List Char :=
  s.map (fun c => if c = old then new else c)

/-- Numeric value of a digit string (most significant digit first). -/
def digitsVal (l : List Char) : ℕ :=
  l.foldl (fun a c => a * 10 + (c.toNat - 48)) 0

/-- Python `float(text)` on the unsigned decimal texts this scraper
produces: `digits`, `digits.`, `digits.digits` or `.digits`. Returns
`none` (a raised `ValueError`) on anything else.  The value is the
exact rational of the text, whereas CPython rounds it to the nearest
binary64; theorems below rely on this definition only on inputs where
the two coincide (the value and everything later computed from it are
exactly representable) or where only parse success/strings matter. -/
def pyFloat (l : List Char) : Option ℚ :=
  let intPart := l.takeWhile Char.isDigit
  let rest := l.dropWhile Char.isDigit
  match rest with
  | [] => if intPart.isEmpty then none else some (digitsVal intPart)
  | '.' :: frac =>
      if frac.all Char.isDigit && !(intPart.isEmpty && frac.isEmpty) then
        some ((digitsVal intPart : ℚ) + (digitsVal frac : ℚ) / ((10 : ℚ) ^ frac.length))
      else none
  | _ => none

/-- Python `int(x)` on a float: truncation toward zero. -/
def pyTrunc (q : ℚ) : ℤ :=
  if q < 0 then -(⌊-q⌋) else ⌊q⌋

/-- The character class stripped from the left of raw field texts,
`'\r\n\t\t…'` in the source (lines 80, 104, 136, 144, 152). -/
def leadStripChars : List Char := ['\r', '\n', '\t']

/-- The character class `'万円'` stripped from the right of currency
texts (lines 80, 88, 101, 102, 104, 106). -/
def manYenChars : List Char := ['万', '円']

/-! ## Regex engine

The module uses `re.search` with three patterns:
`LAT__REGEX = r'"lat": (\d+.\d+)'`, `LONG_REGEX = r'"lng": (\d+.\d+)'`
and `EXTRA_FEES_REGEX = r'(\d+.?\d*万円|-)'`.  They only use literals,
`.`, `\d`, `?`, `*`, `+` (encoded as `X` then `X*`), alternation and one
capture group, so a small fuel-indexed backtracking engine suffices.  It
returns candidate matches in Python's backtracking priority order
(greedy repetition, left alternative first); `re.search` takes the first
candidate at the leftmost starting position. -/

/-- Regex AST for the constructs the module's patterns use.  `grp` is
the (single) capture group. -/
inductive RE where
  | eps : RE
  | dot : RE
  | digitC : RE
  | lit : Char → RE
  | seq : RE → RE → RE
  | alt : RE → RE → RE
  | opt : RE → RE
  | star : RE → RE
  | grp : RE → RE
deriving Repr

/-- Constructor count of a pattern, used only to budget fuel. -/
def reSize : RE → ℕ
  | .eps | .dot | .digitC | .lit _ => 1
  | .seq a b | .alt a b => reSize a + reSize b + 1
  | .opt a | .star a | .grp a => reSize a + 1

/-- Run pattern `r` against `s` at position `p`.  Returns the candidate
matches as `(end position, capture-group span)` pairs, in backtracking
priority order.  `fuel` bounds the recursion depth; all uses supply
enough fuel (`reFuel`) for the answer to be exact. -/
def runRE : ℕ → RE → List Char → ℕ → List (ℕ × Option (ℕ × ℕ))
  | 0, _, _, _ => []
  | fuel + 1, r, s, p =>
    match r with
    | .eps => [(p, none)]
    | .dot =>
      match s.get? p with
      | some c => if c = '\n' then [] else [(p + 1, none)]
      | none => []
    | .digitC =>
      match s.get? p with
      | some c => if c.isDigit then [(p + 1, none)] else []
      | none => []
    | .lit c =>
      match s.get? p with
      | some d => if d = c then [(p + 1, none)] else []
      | none => []
    | .seq a b =>
      (runRE fuel a s p).flatMap (fun x =>
        (runRE fuel b s x.1).map (fun y => (y.1, x.2.orElse (fun _ => y.2))))
    | .alt a b => runRE fuel a s p ++ runRE fuel b s p
    | .opt a => runRE fuel a s p ++ [(p, none)]
    | .star a =>
      ((runRE fuel a s p).filter (fun x => decide (x.1 ≠ p))).flatMap (fun x =>
        (runRE fuel (.star a) s x.1).map (fun y => (y.1, x.2.orElse (fun _ => y.2))))
      ++ [(p, none)]
    | .grp a => (runRE fuel a s p).map (fun x => (x.1, some (p, x.1)))

/-- Fuel sufficient for `runRE` on pattern `r` over `s`: the recursion
descends at most one pattern constructor or one consumed character per
unit. -/
def reFuel (r : RE) (s : List Char) : ℕ :=
  2 * reSize r + s.length + 4

/-- `re.search` scanning loop: try each start position left to right,
return the first (highest-priority) match at the leftmost position that
has one, as `(start, end, capture span)`. -/
def searchFrom (r : RE) (s : List Char) : ℕ → ℕ → Option (ℕ × ℕ × Option (ℕ × ℕ))
  | _, 0 => none
  | i, k + 1 =>
    match runRE (reFuel r s) r s i with
    | (e, g) :: _ => some (i, e, g)
    | [] => searchFrom r s (i + 1) k

/-- Python `re.search(r, s)`. -/
def reSearch (r : RE) (s : List Char) : Option (ℕ × ℕ × Option (ℕ × ℕ)) :=
  searchFrom r s 0 (s.length + 1)

/-- The substring of `s` from position `a` (inclusive) to `b`
(exclusive). -/
def sub (s : List Char) (a b : ℕ) : List Char :=
  (s.drop a).take (b - a)

/-- Sequence of literal characters. -/
def reStr (l : List Char) : RE :=
  l.foldr (fun c r => .seq (.lit c) r) .eps

/-- `\d+` as `\d` then `\d*`. -/
def digitsPlus : RE := .seq .digitC (.star .digitC)

/-- `EXTRA_FEES_REGEX = r'(\d+.?\d*万円|-)'` (line 15). -/
def extraFeesRE : RE :=
  .grp (.alt
    (.seq digitsPlus (.seq (.opt .dot) (.seq (.star .digitC)
      (.seq (.lit '万') (.lit '円')))))
    (.lit '-'))

/-- `LAT__REGEX = r'"lat": (\d+.\d+)'` (line 13). -/
def latRE : RE :=
  .seq (reStr ['"', 'l', 'a', 't', '"', ':', ' '])
    (.grp (.seq digitsPlus (.seq .dot digitsPlus)))

/-- `LONG_REGEX = r'"lng": (\d+.\d+)'` (line 14). -/
def lngRE : RE :=
  .seq (reStr ['"', 'l', 'n', 'g', '"', ':', ' '])
    (.grp (.seq digitsPlus (.seq .dot digitsPlus)))

/-! ## The extraction operations -/

/-- `re.search(EXTRA_FEES_REGEX, text)` as used in `scrap_other_fees`
(line 100), yielding `(match.group(0), match.group(1))`: the whole
matched substring and, when the capture group participated, its
substring.  `none` models a failed search (`.group` on `None` raises). -/
def extraFeesSearchFull (s : List Char) : Option (List Char × Option (List Char)) :=
  match reSearch extraFeesRE s with
  | some (i, e, og) => some (sub s i e, og.map (fun ab => sub s ab.1 ab.2))
  | none => none

/-- `float(g.rstrip('万円').replace('-','0'))` applied to a regex group
string (lines 101–102). -/
def feeFromGroup (g : List Char) : Option ℚ :=
  pyFloat (pyReplaceChar '-' '0' (pyRstrip manYenChars g))

/-- `float(raw.lstrip('\r\n\t…').rstrip('万円').replace('-','0'))`, the
insurance-fee conversion (line 104). -/
def hokenValue (raw : List Char) : Option ℚ :=
  pyFloat (pyReplaceChar '-' '0' (pyRstrip manYenChars (pyLstrip leadStripChars raw)))

/-- Line 106: identical to `hokenValue` except that the source's lstrip
set is `'r\n\t…'` — a literal `r`, not `\r` (a slip kept faithfully). -/
def otherFeesValue (raw : List Char) : Option ℚ :=
  pyFloat (pyReplaceChar '-' '0' (pyRstrip manYenChars (pyLstrip ['r', '\n', '\t'] raw)))

/-- The document state `scrap_other_fees` reads: the cached
`self.monthly_price` (0 until `scrap_price` succeeds, line 32/84) and
the texts of the `div.property_data-body` blocks returned by
`find_all` on the main page, in page order. -/
structure SuumoState where
  monthly_price : ℤ
  property_data_body : List (List Char)
deriving Repr

/-- `SuumoScrapper.scrap_other_fees` (lines 91–113).  `none` models a
raised exception (IndexError from `find_all(...)[i]`, AttributeError
from `.group` on a failed search, ValueError from `float`).  On success
the `Bool` records whether the diagnostic `print` on line 109 ran. -/
def scrap_other_fees (st : SuumoState) : Option (ℚ × Bool) := do
  let body1 ← st.property_data_body.get? 1
  let (g0, og1) ← extraFeesSearchFull body1
  let reikin ← feeFromGroup g0
  let g1 ← og1
  let shikikin ← feeFromGroup g1
  let body2 ← st.property_data_body.get? 2
  let hoken ← hokenValue body2
  let body3 ← st.property_data_body.get? 3
  let other_fees ← otherFeesValue body3
  let total := reikin + shikikin + hoken + other_fees
  if st.monthly_price = 0 then
    pure (0, true)
  else
    pure (total * 10000 / (st.monthly_price : ℚ), false)

/-- Lines 80–82 of `scrap_price`: the raw rent text is lstripped,
rstripped of the `万円` character class, parsed as a float, scaled by
10000 and truncated to an int.  The real pipeline is
`int(float(s) * 10000)` in binary64, i.e. parse-rounding then a rounded
product; here both are exact rational steps, so results are asserted
only for inputs on which binary64 is exact (integer numerals of
bounded size) or which were checked against the binary64 behaviour
(the `'1.99999万円'` counterexample, where both give `19999`). -/
def scrap_price_value (raw : List Char) : Option ℤ :=
  (pyFloat (pyRstrip manYenChars (pyLstrip leadStripChars raw))).map
    (fun q => pyTrunc (q * 10000))

/-- `SuumoScrapper.scrap_coordinates` (lines 49–57): group 1 of the
latitude search and group 1 of the longitude search over the map
sub-page text, returned as strings in that order.  `none` models the
AttributeError raised when a search fails. -/
def group1Of (r : RE) (s : List Char) : Option (List Char) :=
  match reSearch r s with
  | some (_, _, some ab) => some (sub s ab.1 ab.2)
  | _ => none

/-- The pair-returning body of `scrap_coordinates`. -/
def scrap_coordinates (m : List Char) : Option (List Char × List Char) :=
  match group1Of latRE m, group1Of lngRE m with
  | some lati, some longi => some (lati, longi)
  | _, _ => none

/-- `SuumoScrapper.scrap_closest_stations` (lines 115–128) applied to
the texts of the station fragments: fold `stations += f'{station.text}\n'`
then drop the last character (`stations[:-1]`; on the empty string
Python's `''[:-1]` is `''`, as is `List.dropLast`). -/
def scrap_closest_stations (frags : List (List Char)) : List Char :=
  (frags.foldl (fun acc t => acc ++ t ++ ['\n']) []).dropLast

/-- `SuumoScrapper.scrap_madori` (lines 138–144):
`find_all('div', class_='property_data-body')[4].text.lstrip('\r\n\t…')`.
`none` models the IndexError when fewer than five blocks exist. -/
def scrap_madori (blocks : List (List Char)) : Option (List Char) :=
  (blocks.get? 4).map (pyLstrip leadStripChars)

/-- The text-to-float conversion of `scrap_surface` (line 152):
`float(raw.lstrip('\r\n\t…').rstrip('m2'))`. -/
def scrap_surface_value (raw : List Char) : Option ℚ :=
  pyFloat (pyRstrip ['m', '2'] (pyLstrip leadStripChars raw))

/-- `SuumoScrapper.scrap_surface` (lines 146–152) over the
`property_data-body` block texts: index 5, then the conversion. -/
def scrap_surface (blocks : List (List Char)) : Option ℚ :=
  (blocks.get? 5).bind scrap_surface_value

/-- The spec's station join: fragments joined with a newline separator
and no trailing separator (used to compare against the fold-then-drop
implementation). -/
def joinNL : List (List Char) → List Char
  | [] => []
  | [x] => x
  | x :: y :: xs => x ++ '\n' :: joinNL (y :: xs)

/-! ## Helper lemmas -/

theorem dropWhile_append_all {p : Char → Bool} (l₁ l₂ : List Char)
    (h : ∀ c ∈ l₁, p c = true) :
    (l₁ ++ l₂).dropWhile p = l₂.dropWhile p := by
  induction l₁ with
  | nil => simp
  | cons c t ih =>
      simp only [List.cons_append, List.dropWhile_cons, h c (by simp)]
      exact ih (fun d hd => h d (by simp [hd]))

theorem dropWhile_cons_false {p : Char → Bool} (c : Char) (t : List Char)
    (h : p c = false) : (c :: t).dropWhile p = c :: t := by
  simp [List.dropWhile_cons, h]

/-- If the first character of `s` is not in the strip set, `lstrip`
leaves `s` unchanged. -/
theorem pyLstrip_no_strip (cs s : List Char)
    (h : ∀ c, s.head? = some c → c ∉ cs) : pyLstrip cs s = s := by
  cases s with
  | nil => rfl
  | cons c t =>
      unfold pyLstrip
      exact dropWhile_cons_false c t (by simp [h c rfl])

/-- `rstrip` removes a suffix that lies entirely in the strip set and
stops there when the preceding character (the last of `s`) is outside
the set. -/
theorem pyRstrip_append (cs s suf : List Char)
    (hsuf : ∀ c ∈ suf, c ∈ cs)
    (hlast : ∀ c, s.getLast? = some c → c ∉ cs) :
    pyRstrip cs (s ++ suf) = s := by
  unfold pyRstrip
  rw [List.reverse_append]
  rw [dropWhile_append_all suf.reverse s.reverse
    (fun c hc => by simp [hsuf c (List.mem_reverse.mp hc)])]
  cases hrev : s.reverse with
  | nil => simpa using congrArg List.reverse hrev
  | cons hd tl =>
      have hhd : s.getLast? = some hd := by
        rw [← List.head?_reverse, hrev]; rfl
      rw [dropWhile_cons_false hd tl (by simp [hlast hd hhd])]
      rw [← hrev, List.reverse_reverse]

/-- Characters of a decimal numeral (digits and the dot) are never in
the lstrip whitespace class. -/
theorem digitDot_not_mem_lead (c : Char) (h : (c.isDigit || (c == '.')) = true) :
    c ∉ leadStripChars := by
  intro hm
  unfold leadStripChars at hm
  fin_cases hm <;> exact absurd h (by decide)

/-- Characters of a decimal numeral are never in the `'万円'` class. -/
theorem digitDot_not_mem_manYen (c : Char) (h : (c.isDigit || (c == '.')) = true) :
    c ∉ manYenChars := by
  intro hm
  unfold manYenChars at hm
  fin_cases hm <;> exact absurd h (by decide)

/-- A decimal-numeral character other than `'2'` is never in the `'m2'`
class. -/
theorem digitDot_not_mem_m2 (c : Char) (h : (c.isDigit || (c == '.')) = true)
    (h2 : c ≠ '2') : c ∉ ['m', '2'] := by
  intro hm
  fin_cases hm
  · exact absurd h (by decide)
  · exact h2 rfl

/-- The last element of a list is an element of it. -/
theorem getLast?_mem_self {l : List Char} {c : Char} (h : l.getLast? = some c) :
    c ∈ l := by
  rw [← List.head?_reverse] at h
  have := List.mem_of_mem_head? h
  exact List.mem_reverse.mp this

/-- A nonempty list has a last element. -/
theorem getLast?_isSome_of_ne_nil {l : List Char} (h : l ≠ []) :
    ∃ c, l.getLast? = some c := by
  cases hrev : l.reverse with
  | nil => exact absurd (by simpa using congrArg List.reverse hrev) h
  | cons hd tl => exact ⟨hd, by rw [← List.head?_reverse, hrev]; rfl⟩

/-- Every candidate produced by a pattern whose outermost constructor is
the capture group carries a capture span equal to the whole candidate's
span. -/
theorem runRE_grp_capture (f : ℕ) (a : RE) (s : List Char) (p : ℕ) :
    ∀ x ∈ runRE f (RE.grp a) s p, x.2 = some (p, x.1) := by
  intro x hx
  cases f with
  | zero => simp [runRE] at hx
  | succ f =>
      simp only [runRE, List.mem_map] at hx
      obtain ⟨y, _, hy⟩ := hx
      rw [← hy]

/-- A successful `searchFrom` returns the head candidate of `runRE` at
the start position it reports. -/
theorem searchFrom_mem (r : RE) (s : List Char) :
    ∀ (k i a e : ℕ) (g : Option (ℕ × ℕ)),
      searchFrom r s i k = some (a, e, g) →
      (e, g) ∈ runRE (reFuel r s) r s a := by
  intro k
  induction k with
  | zero => intro i a e g h; simp [searchFrom] at h
  | succ k ih =>
      intro i a e g h
      unfold searchFrom at h
      cases hrun : runRE (reFuel r s) r s i with
      | nil =>
          rw [hrun] at h
          exact ih (i + 1) a e g h
      | cons hd tl =>
          obtain ⟨e', g'⟩ := hd
          rw [hrun] at h
          obtain ⟨ha, he, hg⟩ : i = a ∧ e' = e ∧ g' = g := by
            injection h with h'
            injection h' with h1 h2
            injection h2 with h3 h4
            exact ⟨h1, h3, h4⟩
          subst ha; subst he; subst hg
          rw [hrun]
          exact List.mem_cons_self _ _

/-! ## C4: the fee regex captures the whole match -/

/-- C4.  `EXTRA_FEES_REGEX = r'(\d+.?\d*万円|-)'` has a single capture
group spanning the whole pattern, so whenever `re.search` succeeds in
`scrap_other_fees`, `group(1)` is the very same string as `group(0)`;
the values `reikin` and `shikikin` parsed from the two groups (lines
101–102) are therefore equal and the first matched fee is counted twice
in the sum. -/
theorem extra_fees_group0_eq_group1 (s g0 : List Char) (og1 : Option (List Char))
    (h : extraFeesSearchFull s = some (g0, og1)) :
    og1 = some g0 ∧ og1.bind feeFromGroup = feeFromGroup g0 := by
  unfold extraFeesSearchFull at h
  cases hs : reSearch extraFeesRE s with
  | none => rw [hs] at h; exact absurd h (by simp)
  | some t =>
      obtain ⟨i, e, og⟩ := t
      rw [hs] at h
      have hmem : (e, og) ∈ runRE (reFuel extraFeesRE s) extraFeesRE s i :=
        searchFrom_mem extraFeesRE s (s.length + 1) 0 i e og hs
      have hcap : og = some (i, e) := by
        have := runRE_grp_capture (reFuel extraFeesRE s)
          (.alt
            (.seq digitsPlus (.seq (.opt .dot) (.seq (.star .digitC)
              (.seq (.lit '万') (.lit '円')))))
            (.lit '-')) s i (e, og) hmem
        simpa using this
      subst hcap
      simp only [Option.map_some, Option.some.injEq, Prod.mk.injEq] at h
      obtain ⟨hg0, hg1⟩ := h
      subst hg0
      rw [← hg1]
      exact ⟨rfl, rfl⟩

/-- Witness for C4 at the concrete fee text `'5万円'`. -/
theorem extra_fees_group0_eq_group1_witness :
    (some ['5', '万', '円'] : Option (List Char)) = some ['5', '万', '円'] ∧
    (some ['5', '万', '円'] : Option (List Char)).bind feeFromGroup
      = feeFromGroup ['5', '万', '円'] :=
  extra_fees_group0_eq_group1 ['5', '万', '円'] ['5', '万', '円']
    (some ['5', '万', '円']) (by decide)

/-! ## C1 and C3: the fee-months computation -/

/-- C1.  On a document state whose cached monthly rent is zero (i.e.
`scrap_price` never ran successfully) and whose fee fields all parse,
`scrap_other_fees` does not divide by zero: it skips the division,
emits the diagnostic print (the `true` flag) and returns zero instead
of raising. -/
theorem scrap_other_fees_zero_rent (st : SuumoState)
    (b1 b2 b3 g0 g1 : List Char) (reikin shikikin hoken other : ℚ)
    (h1 : st.property_data_body[1]? = some b1)
    (hsearch : extraFeesSearchFull b1 = some (g0, some g1))
    (hrk : feeFromGroup g0 = some reikin)
    (hsk : feeFromGroup g1 = some shikikin)
    (h2 : st.property_data_body[2]? = some b2)
    (hhk : hokenValue b2 = some hoken)
    (h3 : st.property_data_body[3]? = some b3)
    (hot : otherFeesValue b3 = some other)
    (h0 : st.monthly_price = 0) :
    scrap_other_fees st = some ((0 : ℚ), true) := by
  unfold scrap_other_fees
  simp [h1, hsearch, hrk, hsk, h2, hhk, h3, hot, h0]

/-- Witness for C1: rent never scraped, all three fee blocks hold the
placeholder dash. -/
theorem scrap_other_fees_zero_rent_witness :
    scrap_other_fees ⟨0, [[], ['-'], ['-'], ['-']]⟩ = some ((0 : ℚ), true) :=
  scrap_other_fees_zero_rent ⟨0, [[], ['-'], ['-'], ['-']]⟩
    ['-'] ['-'] ['-'] ['-'] ['-'] 0 0 0 0
    (by decide) (by decide) (by decide) (by decide) (by decide)
    (by decide) (by decide) (by decide) rfl

/-- C3.  With a cached monthly rent of 50000 yen and parsed one-time
fees summing to 150000 yen (15 万円 across the four parsed values),
`scrap_other_fees` returns exactly 3 months (and no diagnostic). -/
theorem scrap_other_fees_three_months (st : SuumoState)
    (b1 b2 b3 g0 g1 : List Char) (reikin shikikin hoken other : ℚ)
    (h1 : st.property_data_body[1]? = some b1)
    (hsearch : extraFeesSearchFull b1 = some (g0, some g1))
    (hrk : feeFromGroup g0 = some reikin)
    (hsk : feeFromGroup g1 = some shikikin)
    (h2 : st.property_data_body[2]? = some b2)
    (hhk : hokenValue b2 = some hoken)
    (h3 : st.property_data_body[3]? = some b3)
    (hot : otherFeesValue b3 = some other)
    (hsum : (reikin + shikikin + hoken + other) * 10000 = 150000)
    (hrent : st.monthly_price = 50000) :
    scrap_other_fees st = some ((3 : ℚ), false) := by
  unfold scrap_other_fees
  have htot : reikin + shikikin + hoken + other = 15 := by linarith
  simp [h1, hsearch, hrk, hsk, h2, hhk, h3, hot, hrent, htot]
  norm_num

/-- Witness for C3: rent 50000; the fee blocks are `'5万円'` (counted
twice as reikin and shikikin), `'3万円'` and `'2万円'`, i.e. 150000 yen
across the four parsed values; the result is 3 months. -/
theorem scrap_other_fees_three_months_witness :
    scrap_other_fees ⟨50000, [[],
      ['5', '万', '円'],
      ['3', '万', '円'],
      ['2', '万', '円']]⟩ = some ((3 : ℚ), false) :=
  scrap_other_fees_three_months _
    ['5', '万', '円'] ['3', '万', '円'] ['2', '万', '円']
    ['5', '万', '円'] ['5', '万', '円'] 5 5 3 2
    (by decide) (by decide) (by decide) (by decide) (by decide)
    (by decide) (by decide) (by decide) (by norm_num) rfl


/-! ## C6: coordinate extraction -/

/-- C6.  Whenever both pattern searches over the map sub-page succeed,
`scrap_coordinates` returns the pair (latitude, longitude) in that
order, each being the matched numeric substring — still a string, not a
parsed float. -/
theorem scrap_coordinates_pair (m la lo : List Char)
    (hla : group1Of latRE m = some la) (hlo : group1Of lngRE m = some lo) :
    scrap_coordinates m = some (la, lo) := by
  unfold scrap_coordinates
  rw [hla, hlo]

/-- Witness for C6: a page containing `"lat": 35.6895` and
`"lng": 139.6917` yields the string pair `("35.6895", "139.6917")`. -/
theorem scrap_coordinates_pair_witness :
    scrap_coordinates
      ['"', 'l', 'a', 't', '"', ':', ' ', '3', '5', '.', '6', '8', '9', '5',
       ',', ' ', '"', 'l', 'n', 'g', '"', ':', ' ',
       '1', '3', '9', '.', '6', '9', '1', '7']
      = some (['3', '5', '.', '6', '8', '9', '5'],
              ['1', '3', '9', '.', '6', '9', '1', '7']) :=
  scrap_coordinates_pair _ _ _ (by decide) (by decide)

/-! ## C7 and C8: the station list builder -/

theorem stations_foldl_acc (l : List (List Char)) :
    ∀ acc, l.foldl (fun a t => a ++ t ++ ['\n']) acc
      = acc ++ l.foldl (fun a t => a ++ t ++ ['\n']) [] := by
  induction l with
  | nil => intro acc; simp
  | cons x xs ih =>
      intro acc
      simp only [List.foldl_cons]
      rw [ih (acc ++ x ++ ['\n']), ih ([] ++ x ++ ['\n'])]
      simp [List.append_assoc]

theorem stations_foldl_join (x : List Char) (xs : List (List Char)) :
    (x :: xs).foldl (fun a t => a ++ t ++ ['\n']) [] = joinNL (x :: xs) ++ ['\n'] := by
  induction xs generalizing x with
  | nil => simp [joinNL]
  | cons y ys ih =>
      rw [List.foldl_cons, List.nil_append,
        stations_foldl_acc (y :: ys) (x ++ ['\n']), ih y]
      simp [joinNL, List.append_assoc]

/-- C7.  For every non-empty fragment list, `scrap_closest_stations`
equals the fragments joined with a newline separator and no trailing
separator. -/
theorem scrap_closest_stations_joins (frags : List (List Char))
    (h : frags ≠ []) : scrap_closest_stations frags = joinNL frags := by
  cases frags with
  | nil => exact absurd rfl h
  | cons x xs =>
      unfold scrap_closest_stations
      rw [stations_foldl_join x xs]
      exact List.dropLast_concat

/-- Witness for C7 at the spec example `["Station A", "Station B"]`. -/
theorem scrap_closest_stations_joins_witness :
    scrap_closest_stations
      [['S', 't', 'a', 't', 'i', 'o', 'n', ' ', 'A'],
       ['S', 't', 'a', 't', 'i', 'o', 'n', ' ', 'B']]
      = ['S', 't', 'a', 't', 'i', 'o', 'n', ' ', 'A', '\n',
         'S', 't', 'a', 't', 'i', 'o', 'n', ' ', 'B'] := by
  rw [scrap_closest_stations_joins _ (by decide)]
  decide

/-- C8.  With zero station fragments the builder returns the empty
string and does not fail: `''[:-1]` (here `List.dropLast []`) is
well-defined and empty. -/
theorem scrap_closest_stations_empty : scrap_closest_stations [] = [] := rfl

/-! ## C9: positional field lookup -/

/-- C9.  `scrap_madori` reads block index 4: with at least five
`property_data-body` blocks it returns the fifth block text, lstripped;
with fewer it fails (an IndexError, modelled by `none`) — there is no
bounds check producing a default. -/
theorem scrap_madori_indexing (blocks : List (List Char)) :
    (∀ h : 4 < blocks.length,
        scrap_madori blocks = some (pyLstrip leadStripChars (blocks.get ⟨4, h⟩))) ∧
    (blocks.length ≤ 4 → scrap_madori blocks = none) := by
  constructor
  · intro h
    unfold scrap_madori
    rw [List.get?_eq_get h]
    rfl
  · intro h
    unfold scrap_madori
    rw [List.get?_eq_none.mpr h]
    rfl

/-- Witness for C9: nine blocks give the stripped fifth one (`'1DK'`
after its leading whitespace run); three blocks give the failure. -/
theorem scrap_madori_indexing_witness :
    scrap_madori [['a'], ['b'], ['c'], ['d'], ['\r', '\n', '1', 'D', 'K'],
      ['f'], ['g'], ['h'], ['i']] = some ['1', 'D', 'K'] ∧
    scrap_madori [['a'], ['b'], ['c']] = none := by
  constructor
  · rw [(scrap_madori_indexing _).1 (by decide)]
    decide
  · exact (scrap_madori_indexing _).2 (by decide)

/-! ## C10: the placeholder dash -/

/-- C10.  Each fee-field normalization (the group normalizer of lines
101–102, the insurance normalizer of line 104 and the
miscellaneous-fees normalizer of line 106) maps the "no value"
placeholder dash to numeric zero. -/
theorem fee_placeholder_zero :
    feeFromGroup ['-'] = some 0 ∧ hokenValue ['-'] = some 0 ∧
    otherFeesValue ['-'] = some 0 := by
  refine ⟨by decide, by decide, by decide⟩


/-! ## C2: price conversion truncates -/

/-- The lstrip at the head of the price/area pipelines is a no-op on a
text starting with a numeral character. -/
theorem pyLstrip_numeral_append (numeral suf : List Char)
    (hne : numeral ≠ [])
    (hchars : numeral.all (fun c => c.isDigit || c == '.') = true) :
    pyLstrip leadStripChars (numeral ++ suf) = numeral ++ suf := by
  apply pyLstrip_no_strip
  intro c hc
  cases numeral with
  | nil => exact absurd rfl hne
  | cons d t =>
      simp only [List.cons_append, List.head?_cons, Option.some.injEq] at hc
      cases hc
      exact digitDot_not_mem_lead c (List.all_eq_true.mp hchars c (by simp))

set_option linter.unusedVariables false in
/-- C2 (amended).  The conversion of `scrap_price` on `<numeral>万円`
is `int(float(numeral) * 10000)` in binary64 floating point, and does
not equal `round(numeral × 10000)` in general (see the counterexample
below).  On **integer** numerals of value at most `10 ^ 9`, parsing and
the scaling by 10000 are exact in binary64 (all intermediate values are
integers far below `2 ^ 53`), the exact-rational embedding agrees with
the real pipeline, and the produced integer equals
`numeral × 10000 = round(numeral × 10000)`.  For fractional numerals
the result depends on binary64 parse/product rounding, which this
embedding does not model, so nothing is asserted about them beyond the
counterexample (whose value was checked against binary64). -/
theorem scrap_price_value_int_numerals (numeral : List Char) (n : ℕ)
    (hne : numeral ≠ [])
    (hdigits : numeral.all Char.isDigit = true)
    (hq : pyFloat numeral = some (n : ℚ))
    (hbound : n ≤ 10 ^ 9) :
    scrap_price_value (numeral ++ manYenChars) = some ((n : ℤ) * 10000) ∧
    ((n : ℤ) * 10000) = round ((n : ℚ) * 10000) := by
  have hchars : numeral.all (fun c => c.isDigit || c == '.') = true := by
    rw [List.all_eq_true] at hdigits ⊢
    intro c hc
    simp [hdigits c hc]
  have hcast : ((n : ℚ) * 10000) = ((n * 10000 : ℕ) : ℚ) := by
    push_cast
    ring
  constructor
  · unfold scrap_price_value
    rw [pyLstrip_numeral_append numeral manYenChars hne hchars]
    have hr : pyRstrip manYenChars (numeral ++ manYenChars) = numeral := by
      apply pyRstrip_append
      · intro c hc; exact hc
      · intro c hc
        exact digitDot_not_mem_manYen c
          (List.all_eq_true.mp hchars c (getLast?_mem_self hc))
    rw [hr, hq]
    simp only [Option.map_some']
    congr 1
    unfold pyTrunc
    rw [if_neg (not_lt.mpr (by positivity)), hcast, Int.floor_natCast]
    push_cast
    ring
  · rw [hcast, round_natCast]
    push_cast
    ring

/-- Witness for the amended C2 at `'35万円'`: `350000` yen, which is
also `round(35 × 10000)`; at this input binary64 arithmetic is exact,
so the real program produces the same integer. -/
theorem scrap_price_value_int_numerals_witness :
    scrap_price_value (['3', '5'] ++ manYenChars) = some (((35 : ℕ) : ℤ) * 10000) ∧
    ((35 : ℕ) : ℤ) * 10000 = round (((35 : ℕ) : ℚ) * 10000) :=
  scrap_price_value_int_numerals ['3', '5'] 35
    (by decide) (by decide) (by decide) (by norm_num)

/-- Counterexample to C2 as stated: on `'1.99999万円'` the code produces
`19999`, while `round(1.99999 × 10000)` is `20000`.  Here the
exact-rational model and CPython binary64 agree on `19999`: the double
nearest `1.99999` lies below it, so `float('1.99999') * 10000` is below
`19999.9` and `int` truncates to `19999` either way. -/
theorem scrap_price_round_counterexample :
    scrap_price_value ['1', '.', '9', '9', '9', '9', '9', '万', '円'] = some 19999 ∧
    pyFloat ['1', '.', '9', '9', '9', '9', '9'] = some ((199999 : ℚ) / 100000) ∧
    round (((199999 : ℚ) / 100000) * 10000) = 20000 ∧
    (19999 : ℤ) ≠ 20000 := by
  have hd1 : digitsVal ['1'] = 1 := by decide
  have hd9 : digitsVal ['9', '9', '9', '9', '9'] = 99999 := by decide
  have hfl : pyFloat ['1', '.', '9', '9', '9', '9', '9']
      = some ((digitsVal ['1'] : ℚ) + (digitsVal ['9', '9', '9', '9', '9'] : ℚ) / ((10 : ℚ) ^ 5)) := by
    rfl
  have hfl' : pyFloat ['1', '.', '9', '9', '9', '9', '9'] = some ((199999 : ℚ) / 100000) := by
    rw [hfl, hd1, hd9]
    norm_num
  refine ⟨?_, hfl', ?_, by decide⟩
  · unfold scrap_price_value
    have hstrip : pyRstrip manYenChars
        (pyLstrip leadStripChars ['1', '.', '9', '9', '9', '9', '9', '万', '円'])
        = ['1', '.', '9', '9', '9', '9', '9'] := by decide
    rw [hstrip, hfl']
    have hval : pyTrunc ((199999 : ℚ) / 100000 * 10000) = 19999 := by
      unfold pyTrunc
      rw [if_neg (by norm_num), Int.floor_eq_iff]
      norm_num
    simp only [Option.map_some']
    rw [hval]
  · rw [round_eq, Int.floor_eq_iff]
    norm_num

/-! ## C5: the area suffix strip -/

/-- C5 (amended).  For a raw area text `<numeral>m2` whose numeral does
not end in the character `'2'`, `scrap_surface` returns the float value
of the numeral.  (The restriction is forced: `rstrip('m2')` strips the
character class `{'m','2'}`, so a numeral ending in `'2'` loses its own
trailing characters too.) -/
theorem scrap_surface_strips (blocks : List (List Char)) (numeral : List Char) (q : ℚ)
    (hb : blocks.get? 5 = some (numeral ++ ['m', '2']))
    (hne : numeral ≠ [])
    (hchars : numeral.all (fun c => c.isDigit || c == '.') = true)
    (hlast : numeral.getLast? ≠ some '2')
    (hq : pyFloat numeral = some q) :
    scrap_surface blocks = some q := by
  unfold scrap_surface
  rw [hb]
  show scrap_surface_value (numeral ++ ['m', '2']) = some q
  unfold scrap_surface_value
  rw [pyLstrip_numeral_append numeral ['m', '2'] hne hchars]
  have hr : pyRstrip ['m', '2'] (numeral ++ ['m', '2']) = numeral := by
    apply pyRstrip_append
    · intro c hc; exact hc
    · intro c hc
      apply digitDot_not_mem_m2 c
        (List.all_eq_true.mp hchars c (getLast?_mem_self hc))
      intro h2
      exact hlast (h2 ▸ hc)
  rw [hr, hq]

/-- Witness for the amended C5 at `'35m2'` (block index 5). -/
theorem scrap_surface_strips_witness :
    scrap_surface [[], [], [], [], [], ['3', '5', 'm', '2']] = some 35 :=
  scrap_surface_strips _ ['3', '5'] 35
    (by decide) (by decide) (by decide) (by decide) (by decide)

/-- Counterexample to C5 as stated: on the raw area text `'42m2'` the
class-based `rstrip` also eats the numeral's trailing `'2'`, so
`scrap_surface` returns `4.0`, not `42.0`. -/
theorem scrap_surface_char_class_counterexample :
    scrap_surface [[], [], [], [], [], ['4', '2', 'm', '2']] = some 4 ∧
    pyFloat ['4', '2'] = some 42 ∧ ((4 : ℚ) ≠ 42) := by
  refine ⟨by decide, by decide, by decide⟩

end Suumo
